import Mathlib

/-!
Verification development for the IPO DRHP analyzer (`src/app.py`).

The file shallowly embeds the two algorithmic parts of the program:

* the JSON-extraction step of `get_structured_data` (find the first `{`
  and the last `}`, slice with Python slicing semantics, `json.loads`);
* the forensic signal engine `compute_flags` with its nested `cagr`
  helper.

Python values are modelled by the inductive `PyVal` (numbers are exact
rationals: the development idealises IEEE floats as `ℚ`, which is the
usual idealisation; non-finite floats such as `inf`/`nan` are outside the
model).  Python exceptions are modelled by `Except PyErr`.  The float
power `x ** (1.0 / n)` used by `cagr` is transcendental, so it is
modelled by an explicit parameter `rt : ℚ → ℕ → ℕ → ℚ`-like function
`rt ratio n` standing for `ratio ** (1.0 / n)`; every theorem quantifies
over `rt`, so nothing proved depends on a particular choice of the root
function.
-/

/-- A Python value as it can appear in the structured record: `None`,
booleans, numbers (ints and floats idealised as `ℚ`), strings, lists
(tuples are merged with lists: the source only tests
`isinstance(x, (list, tuple))`), and string-keyed dicts as association
lists. -/
inductive PyVal where
  | none : PyVal
  | bool : Bool → PyVal
  | num : ℚ → PyVal
  | str : String → PyVal
  | list : List PyVal → PyVal
  | dict : List (String × PyVal) → PyVal

/-- The Python exceptions the embedded code can raise. -/
inductive PyErr where
  | typeError : PyErr
  | attributeError : PyErr
  | keyError : PyErr
  | indexError : PyErr
  | zeroDivisionError : PyErr

/-- A Python dict (string keys), as an association list. -/
def PyDict : Type := List (String × PyVal)

/-- Explicit bind on `Except PyErr`, written out so that proofs can
unfold it with a single simp lemma. -/
def exbind {α β : Type} (e : Except PyErr α) (f : α → Except PyErr β) :
    Except PyErr β :=
  match e with
  | .error er => .error er
  | .ok a => f a

/-- Python truthiness: `None`, `False`, `0`, `""`, `[]`, `{}` are falsy. -/
def pyTruthy (v : PyVal) : Bool :=
  match v with
  | .none => false
  | .bool b => b
  | .num q => decide (q ≠ 0)
  | .str s => decide (s ≠ "")
  | .list xs => !xs.isEmpty
  | .dict d => !d.isEmpty

/-- Python `a or b`: `a` if truthy, else `b`. -/
def pyOr (a b : PyVal) : PyVal := if pyTruthy a then a else b

/-- `v is None`. -/
def pyIsNone (v : PyVal) : Bool :=
  match v with
  | .none => true
  | _ => false

/-- Dict lookup with `None` default, i.e. Python's `d.get(k)` on an
actual dict. -/
def pyDictGetD (d : List (String × PyVal)) (k : String) : PyVal :=
  match List.lookup k d with
  | some v => v
  | Option.none => PyVal.none

/-- Python `v.get(k)`: succeeds on dicts, raises `AttributeError`
otherwise. -/
def pyGet (v : PyVal) (k : String) : Except PyErr PyVal :=
  match v with
  | .dict d => .ok (pyDictGetD d k)
  | _ => .error .attributeError

/-- `v.get(k) or []`, the pattern used for every financial series. -/
def pyGetOr (v : PyVal) (k : String) : Except PyErr PyVal :=
  match pyGet v k with
  | .ok x => .ok (pyOr x (.list []))
  | .error e => .error e

/-- The elements obtained by iterating over (or taking `len` of) a
Python value: lists yield their elements, strings their characters (as
one-character strings), dicts their keys; numbers, booleans and `None`
raise `TypeError`. -/
def pyElems (v : PyVal) : Except PyErr (List PyVal) :=
  match v with
  | .list xs => .ok xs
  | .str s => .ok (s.toList.map (fun c => PyVal.str (String.mk [c])))
  | .dict d => .ok (d.map (fun kv => PyVal.str kv.1))
  | _ => .error .typeError

/-- Python `v[-1]`: last element of a list (IndexError when empty), last
character of a string, `KeyError` on a (string-keyed) dict, `TypeError`
otherwise. -/
def pyLastIndex (v : PyVal) : Except PyErr PyVal :=
  match v with
  | .list xs =>
    match xs.getLast? with
    | some x => .ok x
    | Option.none => .error .indexError
  | .str s =>
    match s.toList.getLast? with
    | some c => .ok (.str (String.mk [c]))
    | Option.none => .error .indexError
  | .dict _ => .error .keyError
  | _ => .error .typeError

/-- Numeric reading of a value for Python arithmetic: numbers are
themselves, `True`/`False` are `1`/`0` (bool is an int subclass),
everything else is not a number. -/
def pyToNum (v : PyVal) : Option ℚ :=
  match v with
  | .num q => some q
  | .bool b => some (if b then 1 else 0)
  | _ => Option.none

/-- Python `a / b` on arbitrary values: `TypeError` unless both are
numeric, `ZeroDivisionError` on a zero divisor. -/
def pyDiv (a b : PyVal) : Except PyErr ℚ :=
  match pyToNum a, pyToNum b with
  | some x, some y =>
    if y = 0 then .error .zeroDivisionError else .ok (x / y)
  | _, _ => .error .typeError

/-- Python `v > q` against a numeric literal: `TypeError` unless `v` is
numeric. -/
def pyGtNum (v : PyVal) (q : ℚ) : Except PyErr Bool :=
  match pyToNum v with
  | some p => .ok (decide (q < p))
  | Option.none => .error .typeError

/-- Numeric reading used by `total_proc += amt`: `TypeError` when `amt`
is not numeric. -/
def pyToNumE (v : PyVal) : Except PyErr ℚ :=
  match pyToNum v with
  | some q => .ok q
  | Option.none => .error .typeError

/-- Lower-casing of a string, character by character. -/
def lowerStr (s : String) : String := String.mk (s.toList.map Char.toLower)

/-- Python `v.lower()`: only strings have the method. -/
def pyLower (v : PyVal) : Except PyErr String :=
  match v with
  | .str s => .ok (lowerStr s)
  | _ => .error .attributeError

/-- Does `needle` occur at the head of `hay`? -/
def listStarts : List Char → List Char → Bool
  | [], _ => true
  | _ :: _, [] => false
  | a :: as, b :: bs => a = b && listStarts as bs

/-- Does `needle` occur anywhere in `hay` (Python `needle in hay` on
strings)? -/
def listHasSub (needle : List Char) : List Char → Bool
  | [] => needle.isEmpty
  | c :: rest => listStarts needle (c :: rest) || listHasSub needle rest

/-- Python `needle in hay` for strings. -/
def strIn (needle hay : String) : Bool := listHasSub needle.toList hay.toList

/-- Value of a digit string, most significant first. -/
def digitsVal (ds : List Char) : ℕ :=
  ds.foldl (fun a c => 10 * a + (c.toNat - 48)) 0

/-- Whitespace stripped by Python's `float(str)`. -/
def isSpaceCh (c : Char) : Bool :=
  c = ' ' || c = '\t' || c = '\n' || c = '\r' || c = '\x0b' || c = '\x0c'

/-- Strip leading and trailing whitespace. -/
def stripChars (cs : List Char) : List Char :=
  ((cs.dropWhile isSpaceCh).reverse.dropWhile isSpaceCh).reverse

/-- Numeric value of `sign * ip.fp * 10^e`. -/
def mkNumQ (sgn : ℚ) (ip fp : List Char) (e : ℤ) : ℚ :=
  sgn * ((digitsVal ip : ℚ) + (digitsVal fp : ℚ) / (10 : ℚ) ^ fp.length) *
    (10 : ℚ) ^ e

/-- Exponent tail of a float literal: optional sign then digits, which
must exhaust the input. -/
def parseExpTail (cs : List Char) : Option ℤ :=
  let p : ℤ × List Char :=
    match cs with
    | '+' :: r => (1, r)
    | '-' :: r => (-1, r)
    | _ => (1, cs)
  let d : List Char × List Char := p.2.span Char.isDigit
  if d.1.isEmpty || !d.2.isEmpty then Option.none
  else some (p.1 * (digitsVal d.1 : ℤ))

/-- Python's `float(str)` on the finite decimal forms: optional
whitespace and sign, digits with an optional decimal point (either side
of the point may be empty but not both), and an optional exponent.
Non-finite spellings (`inf`, `nan`) and digit underscores are outside
the rational model and are treated as failing. -/
def parseFloatQ (s : String) : Option ℚ :=
  let cs := stripChars s.toList
  let p : ℚ × List Char :=
    match cs with
    | '+' :: r => (1, r)
    | '-' :: r => (-1, r)
    | _ => (1, cs)
  let ipr : List Char × List Char := p.2.span Char.isDigit
  let fpr : List Char × List Char :=
    match ipr.2 with
    | '.' :: r => r.span Char.isDigit
    | _ => ([], ipr.2)
  let hadPoint : Bool :=
    match ipr.2 with
    | '.' :: _ => true
    | _ => false
  if ipr.1.isEmpty && fpr.1.isEmpty then Option.none
  else
    let rest := if hadPoint then fpr.2 else ipr.2
    match rest with
    | [] => some (mkNumQ p.1 ipr.1 fpr.1 0)
    | 'e' :: r =>
      match parseExpTail r with
      | some e => some (mkNumQ p.1 ipr.1 fpr.1 e)
      | Option.none => Option.none
    | 'E' :: r =>
      match parseExpTail r with
      | some e => some (mkNumQ p.1 ipr.1 fpr.1 e)
      | Option.none => Option.none
    | _ => Option.none

/-- Python `float(value)` as used inside `cagr`: numbers pass through,
booleans coerce to `1`/`0`, strings are parsed as float literals,
everything else raises (and the source catches the raise). -/
def pyFloat (v : PyVal) : Option ℚ :=
  match v with
  | .num q => some q
  | .bool b => some (if b then 1 else 0)
  | .str s => parseFloatQ s
  | _ => Option.none

/-- The per-element value selection of `cagr`'s cleaning loop: a
list/tuple of length at least 2 contributes its second element,
anything else contributes itself. -/
def valueOfEntry (x : PyVal) : PyVal :=
  match x with
  | .list (_ :: v :: _) => v
  | _ => x

/-- One step of `cagr`'s cleaning loop: `None` is skipped, then
`float` coercion is attempted and failures are skipped. -/
def coerceEntry (x : PyVal) : Option ℚ :=
  let value := valueOfEntry x
  if pyIsNone value then Option.none else pyFloat value

/-- The `cleaned` list built by `cagr`'s loop, in order. -/
def cleanedOf (elems : List PyVal) : List ℚ := elems.filterMap coerceEntry

/-- The tail of `cagr` after cleaning: `None` if fewer than two numeric
values remain, `None` if the first or last is non-positive, otherwise
`(last / first) ** (1.0 / n) - 1.0` with `n = len(cleaned) - 1`,
the float power being modelled by `rt`. -/
def cagrCore (rt : ℚ → ℕ → ℚ) (cleaned : List ℚ) : Option ℚ :=
  match cleaned with
  | c0 :: c1 :: cs =>
    let lst := List.getLastD cs c1
    if c0 ≤ 0 ∨ lst ≤ 0 then Option.none
    else some (rt (lst / c0) (cs.length + 1) - 1)
  | _ => Option.none

/-- `cagr` on lists (the shape the cleaning loop sees after a `len`
check): short series give `None`. -/
def cagrList (rt : ℚ → ℕ → ℚ) (xs : List PyVal) : Option ℚ :=
  if xs.length < 2 then Option.none else cagrCore rt (cleanedOf xs)

/-- The nested helper `cagr(series)` of `compute_flags`: a falsy series
returns `None` at once (`not series` short-circuits before `len`), a
truthy non-sized value raises `TypeError` at `len(series)`, otherwise
the series is cleaned and the growth rate computed. -/
def cagr (rt : ℚ → ℕ → ℚ) (series : PyVal) : Except PyErr (Option ℚ) :=
  if pyTruthy series then
    match pyElems series with
    | .error e => .error e
    | .ok elems =>
      if elems.length < 2 then .ok Option.none
      else .ok (cagrCore rt (cleanedOf elems))
  else .ok Option.none

/-- `fin = data.get("financials") or {}`. -/
def finOf (data : PyDict) : PyVal :=
  pyOr (pyDictGetD data "financials") (PyVal.dict [])

/-- `years = fin.get("years") or []` (read but unused by the source;
kept because its `AttributeError` is the first raise point). -/
def yearsOf (data : PyDict) : Except PyErr PyVal := pyGetOr (finOf data) "years"

/-- `rev = fin.get("revenue") or []`. -/
def revOf (data : PyDict) : Except PyErr PyVal := pyGetOr (finOf data) "revenue"

/-- `rec = fin.get("trade_receivables") or []`. -/
def recvOf (data : PyDict) : Except PyErr PyVal :=
  pyGetOr (finOf data) "trade_receivables"

/-- `rpt = fin.get("rpt_revenue_pct") or []`. -/
def rptOf (data : PyDict) : Except PyErr PyVal :=
  pyGetOr (finOf data) "rpt_revenue_pct"

/-- `uop = data.get("use_of_proceeds") or []`. -/
def uopOf (data : PyDict) : PyVal :=
  pyOr (pyDictGetD data "use_of_proceeds") (PyVal.list [])

/-- The `receivables_grow_faster` boolean:
`rev_cagr is not None and rec_cagr is not None and rec_cagr > rev_cagr + 0.05`. -/
def growFasterFlag (revCagr recCagr : Option ℚ) : Bool :=
  match revCagr, recCagr with
  | some x, some y => decide (x + 1 / 20 < y)
  | _, _ => false

/-- The `rec_to_rev_latest` entry:
`rec[-1] / rev[-1]` if `rev and rec and rev[-1] and rec[-1]`, else
`None`; the indexings and the division can raise. -/
def recToRevFlag (rv rc : PyVal) : Except PyErr PyVal :=
  if pyTruthy rv then
    if pyTruthy rc then
      match pyLastIndex rv with
      | .error e => .error e
      | .ok lv =>
        if pyTruthy lv then
          match pyLastIndex rc with
          | .error e => .error e
          | .ok lc =>
            if pyTruthy lc then
              match pyDiv lc lv with
              | .error e => .error e
              | .ok q => .ok (.num q)
            else .ok .none
        else .ok .none
    else .ok .none
  else .ok .none

/-- The `rpt_share_latest` / `rpt_share_high` pair:
`if rpt and rpt[-1] is not None:` passes the raw last entry through and
compares it with `20`, else `(None, False)`. -/
def rptFlags (rp : PyVal) : Except PyErr (PyVal × Bool) :=
  if pyTruthy rp then
    match pyLastIndex rp with
    | .error e => .error e
    | .ok pl =>
      if pyIsNone pl then .ok (.none, false)
      else
        match pyGtNum pl 20 with
        | .error e => .error e
        | .ok b => .ok (pl, b)
  else .ok (.none, false)

/-- The body of the `use_of_proceeds` loop, threading
`(total_proc, gcp)`: per item, `item.get("amount_crore")`, then
`(item.get("category") or "").lower()`, then `continue` on a `None`
amount, else add to the total and, when `"general"` occurs in the
lowered category, to `gcp`. -/
def uopLoop : List PyVal → ℚ → ℚ → Except PyErr (ℚ × ℚ)
  | [], t, g => .ok (t, g)
  | item :: rest, t, g =>
    exbind (pyGet item "amount_crore") (fun amt =>
      exbind (pyGet item "category") (fun cv =>
        exbind (pyLower (pyOr cv (.str ""))) (fun cat =>
          if pyIsNone amt then uopLoop rest t g
          else
            exbind (pyToNumE amt) (fun a =>
              uopLoop rest (t + a)
                (if strIn "general" cat then g + a else g)))))

/-- `None` or a float, as stored into the flags dict. -/
def optToPy (o : Option ℚ) : PyVal :=
  match o with
  | some q => .num q
  | Option.none => .none

/-- `gcp_high`: `gcp_pct is not None and gcp_pct > 30`. -/
def gcpHighOf (o : Option ℚ) : Bool :=
  match o with
  | some p => decide (p > 30)
  | Option.none => false

/-- The flags dict assembled by `compute_flags`, with its keys in the
insertion order of the source's assignments. -/
def flagsOut (revCagr recCagr : Option ℚ) (rtr rsl : PyVal) (rsh : Bool)
    (tg : ℚ × ℚ) : PyDict :=
  [("revenue_cagr", optToPy revCagr),
   ("receivables_cagr", optToPy recCagr),
   ("receivables_grow_faster", .bool (growFasterFlag revCagr recCagr)),
   ("rec_to_rev_latest", rtr),
   ("rpt_share_latest", rsl),
   ("rpt_share_high", .bool rsh),
   ("gcp_pct", optToPy (if tg.1 > 0 then some (tg.2 / tg.1 * 100) else Option.none)),
   ("gcp_high", .bool (gcpHighOf (if tg.1 > 0 then some (tg.2 / tg.1 * 100) else Option.none)))]

/-- `compute_flags(data)` (src/app.py lines 84–161), with the float
power of `cagr` supplied as `rt`.  The stages run in source order, so
the first Python exception is the error returned. -/
def compute_flags (rt : ℚ → ℕ → ℚ) (data : PyDict) : Except PyErr PyDict :=
  exbind (yearsOf data) (fun _ys =>
    exbind (revOf data) (fun rev =>
      exbind (recvOf data) (fun rcv =>
        exbind (rptOf data) (fun rp =>
          exbind (cagr rt rev) (fun revCagr =>
            exbind (cagr rt rcv) (fun recCagr =>
              exbind (recToRevFlag rev rcv) (fun rtr =>
                exbind (rptFlags rp) (fun rr =>
                  exbind (pyElems (uopOf data)) (fun items =>
                    exbind (uopLoop items 0 0) (fun tg =>
                      .ok (flagsOut revCagr recCagr rtr rr.1 rr.2 tg)))))))))))

/-- Lookup in a flags dict, for stating properties of the result. -/
def pyLookup (d : PyDict) (k : String) : Option PyVal := List.lookup k d

/-- The keys of a flags dict, in order. -/
def pyKeys (d : PyDict) : List String := d.map Prod.fst

/-- The opening-brace character, kept out of string literals. -/
def lbrace : Char := Char.ofNat 123

/-- The closing-brace character, kept out of string literals. -/
def rbrace : Char := Char.ofNat 125

/-- Index of the first occurrence of `c`, if any. -/
def firstIdx (cs : List Char) (c : Char) : Option ℕ :=
  match cs with
  | [] => Option.none
  | a :: rest =>
    if a = c then some 0 else (firstIdx rest c).map (· + 1)

/-- Index of the last occurrence of `c`, if any. -/
def lastIdx (cs : List Char) (c : Char) : Option ℕ :=
  match cs with
  | [] => Option.none
  | a :: rest =>
    match lastIdx rest c with
    | some i => some (i + 1)
    | Option.none => if a = c then some 0 else Option.none

/-- Python `raw.find(c)`: first index or `-1`. -/
def pyFindChar (cs : List Char) (c : Char) : ℤ :=
  match firstIdx cs c with
  | some i => (i : ℤ)
  | Option.none => -1

/-- Python `raw.rfind(c)`: last index or `-1`. -/
def pyRfindChar (cs : List Char) (c : Char) : ℤ :=
  match lastIdx cs c with
  | some i => (i : ℤ)
  | Option.none => -1

/-- Python slice-index normalisation: negative indices count from the
end, and the result is clamped to `[0, n]`. -/
def pyNormIdx (n : ℕ) (i : ℤ) : ℕ :=
  (max 0 (min (n : ℤ) (if i < 0 then i + n else i))).toNat

/-- Python `raw[a:b]` on a character list. -/
def pySliceL (cs : List Char) (a b : ℤ) : List Char :=
  (cs.drop (pyNormIdx cs.length a)).take (pyNormIdx cs.length b - pyNormIdx cs.length a)

/-- Update-or-append on an association list, i.e. `d[k] = v` on a dict
(used so that duplicate JSON keys keep the last value, as Python does). -/
def pySet (d : List (String × PyVal)) (k : String) (v : PyVal) :
    List (String × PyVal) :=
  match d with
  | [] => [(k, v)]
  | (k2, v2) :: rest =>
    if k2 = k then (k2, v) :: rest else (k2, v2) :: pySet rest k v

/-- JSON insignificant whitespace. -/
def jsonWs (cs : List Char) : List Char :=
  cs.dropWhile (fun c => c = ' ' || c = '\t' || c = '\n' || c = '\r')

/-- Value of a hexadecimal digit. -/
def hexVal (c : Char) : Option ℕ :=
  if c.isDigit then some (c.toNat - 48)
  else if 'a' ≤ c && c ≤ 'f' then some (c.toNat - 87)
  else if 'A' ≤ c && c ≤ 'F' then some (c.toNat - 55)
  else Option.none

/-- Body of a JSON string, after the opening quote: returns the decoded
characters and the input after the closing quote.  The standard escapes
and `\uXXXX` (as a single code point; surrogate-pair recombination is
outside the model) are handled; unescaped control characters are
rejected. -/
def jsonStrBody (fuel : ℕ) (cs : List Char) : Option (List Char × List Char) :=
  match fuel with
  | 0 => Option.none
  | f + 1 =>
    match cs with
    | [] => Option.none
    | c :: rest =>
      if c = '"' then some ([], rest)
      else if c = '\\' then
        match rest with
        | [] => Option.none
        | e :: rest2 =>
          let dec : Option (Char × List Char) :=
            if e = '"' then some ('"', rest2)
            else if e = '\\' then some ('\\', rest2)
            else if e = '/' then some ('/', rest2)
            else if e = 'b' then some ('\x08', rest2)
            else if e = 'f' then some ('\x0c', rest2)
            else if e = 'n' then some ('\n', rest2)
            else if e = 'r' then some ('\r', rest2)
            else if e = 't' then some ('\t', rest2)
            else if e = 'u' then
              match rest2 with
              | h1 :: h2 :: h3 :: h4 :: rest3 =>
                match hexVal h1, hexVal h2, hexVal h3, hexVal h4 with
                | some a, some b, some c2, some d =>
                  some (Char.ofNat (((a * 16 + b) * 16 + c2) * 16 + d), rest3)
                | _, _, _, _ => Option.none
              | _ => Option.none
            else Option.none
          match dec with
          | Option.none => Option.none
          | some (ch, r) =>
            match jsonStrBody f r with
            | some (out, fin) => some (ch :: out, fin)
            | Option.none => Option.none
      else if c.toNat < 32 then Option.none
      else
        match jsonStrBody f rest with
        | some (out, fin) => some (c :: out, fin)
        | Option.none => Option.none

/-- A JSON number with exponent tail, starting after `e`/`E`. -/
def jsonNumExp (sgn : ℚ) (ip fp : List Char) (cs : List Char) :
    Option (ℚ × List Char) :=
  let p : ℤ × List Char :=
    match cs with
    | '+' :: r => (1, r)
    | '-' :: r => (-1, r)
    | _ => (1, cs)
  let d : List Char × List Char := p.2.span Char.isDigit
  if d.1.isEmpty then Option.none
  else some (mkNumQ sgn ip fp (p.1 * (digitsVal d.1 : ℤ)), d.2)

/-- A JSON number: optional `-`, integer digits, optional fraction,
optional exponent (the leading-zero restriction of the JSON grammar is
not enforced; this only widens the accepted numbers). -/
def jsonNumber (cs : List Char) : Option (ℚ × List Char) :=
  let p : ℚ × List Char :=
    match cs with
    | '-' :: r => (-1, r)
    | _ => (1, cs)
  let ipr : List Char × List Char := p.2.span Char.isDigit
  if ipr.1.isEmpty then Option.none
  else
    match ipr.2 with
    | '.' :: r =>
      let d : List Char × List Char := r.span Char.isDigit
      if d.1.isEmpty then Option.none
      else
        match d.2 with
        | 'e' :: r2 => jsonNumExp p.1 ipr.1 d.1 r2
        | 'E' :: r2 => jsonNumExp p.1 ipr.1 d.1 r2
        | _ => some (mkNumQ p.1 ipr.1 d.1 0, d.2)
    | 'e' :: r2 => jsonNumExp p.1 ipr.1 [] r2
    | 'E' :: r2 => jsonNumExp p.1 ipr.1 [] r2
    | _ => some (mkNumQ p.1 ipr.1 [] 0, ipr.2)

mutual

/-- A JSON value, by recursive descent with explicit fuel; returns the
value and the unconsumed input. -/
def jsonVal (fuel : ℕ) (cs : List Char) : Option (PyVal × List Char) :=
  match fuel with
  | 0 => Option.none
  | f + 1 =>
    match jsonWs cs with
    | [] => Option.none
    | c :: rest =>
      if c = lbrace then jsonObjBody f (jsonWs rest) []
      else if c = '[' then jsonArrBody f (jsonWs rest) []
      else if c = '"' then
        match jsonStrBody (rest.length + 1) rest with
        | some (out, fin) => some (.str (String.mk out), fin)
        | Option.none => Option.none
      else if c = 't' then
        match rest with
        | 'r' :: 'u' :: 'e' :: r => some (.bool true, r)
        | _ => Option.none
      else if c = 'f' then
        match rest with
        | 'a' :: 'l' :: 's' :: 'e' :: r => some (.bool false, r)
        | _ => Option.none
      else if c = 'n' then
        match rest with
        | 'u' :: 'l' :: 'l' :: r => some (.none, r)
        | _ => Option.none
      else
        match jsonNumber (c :: rest) with
        | some (q, r) => some (.num q, r)
        | Option.none => Option.none

/-- Members of a JSON object, after the opening brace and whitespace. -/
def jsonObjBody (fuel : ℕ) (cs : List Char) (acc : List (String × PyVal)) :
    Option (PyVal × List Char) :=
  match fuel with
  | 0 => Option.none
  | f + 1 =>
    match cs with
    | [] => Option.none
    | c :: rest =>
      if c = rbrace && acc.isEmpty then some (.dict acc, rest)
      else if c = '"' then
        match jsonStrBody (rest.length + 1) rest with
        | Option.none => Option.none
        | some (key, r1) =>
          match jsonWs r1 with
          | ':' :: r2 =>
            match jsonVal f r2 with
            | Option.none => Option.none
            | some (v, r3) =>
              let acc2 := pySet acc (String.mk key) v
              match jsonWs r3 with
              | ',' :: r4 => jsonObjBody f (jsonWs r4) acc2
              | c2 :: r4 =>
                if c2 = rbrace then some (.dict acc2, r4) else Option.none
              | [] => Option.none
          | _ => Option.none
      else Option.none

/-- Items of a JSON array, after the opening bracket and whitespace. -/
def jsonArrBody (fuel : ℕ) (cs : List Char) (acc : List PyVal) :
    Option (PyVal × List Char) :=
  match fuel with
  | 0 => Option.none
  | f + 1 =>
    match cs with
    | [] => Option.none
    | c :: rest =>
      if c = ']' && acc.isEmpty then some (.list [], rest)
      else
        match jsonVal f (c :: rest) with
        | Option.none => Option.none
        | some (v, r1) =>
          match jsonWs r1 with
          | ',' :: r2 => jsonArrBody f r2 (acc ++ [v])
          | ']' :: r2 => some (.list (acc ++ [v]), r2)
          | _ => Option.none

end

/-- `json.loads` on a character list: parse one JSON value and require
only whitespace to remain.  `2 * length + 2` fuel dominates the number
of recursive-descent calls, each pair of which consumes at least one
character. -/
def json_loads (cs : List Char) : Option PyVal :=
  match jsonVal (2 * cs.length + 2) cs with
  | some (v, rest) => if (jsonWs rest).isEmpty then some v else Option.none
  | Option.none => Option.none

/-- The JSON-extraction step of `get_structured_data` (src/app.py lines
77–81): `start = raw.find("{")`, `end = raw.rfind("}")`,
`json.loads(raw[start : end + 1])` with Python slicing semantics (a
missing brace makes the corresponding index `-1`). -/
def extractJson (raw : List Char) : Option PyVal :=
  json_loads (pySliceL raw (pyFindChar raw lbrace) (pyRfindChar raw rbrace + 1))

/-- The Adapter contract as the spec words it: locate the first `{` and
the last `}`; if either is absent, fail; otherwise parse the inclusive
substring between them as JSON, failing on a syntax error. -/
def adapterSpec (raw : List Char) : Option PyVal :=
  match firstIdx raw lbrace, lastIdx raw rbrace with
  | some i, some j => json_loads ((raw.drop i).take (j + 1 - i))
  | _, _ => Option.none

/-- The spec's description of the per-element value selection in the
series normalization: a pair/sequence of length at least 2 contributes
its second element, anything else contributes itself. -/
def specEntryValue (x : PyVal) : PyVal :=
  match x with
  | .list xs => if 2 ≤ xs.length then xs.getD 1 PyVal.none else x
  | _ => x

/-- The spec's numeric series normalization: select each element's
value, drop `null`s, attempt numeric coercion and drop failures,
preserving order. -/
def normalizeSpec (xs : List PyVal) : List ℚ :=
  (xs.map specEntryValue).filterMap
    (fun v => if pyIsNone v then Option.none else pyFloat v)

/-- The reference CAGR of claim C3: `null` for a raw series shorter
than 2; `null` when fewer than 2 numeric values survive normalization;
`null` when the first or last normalized value is non-positive;
otherwise `(last / first) ** (1 / n) - 1` (float power modelled by
`rt`) with `n` the count of normalized values minus 1. -/
def cagrRefSpec (rt : ℚ → ℕ → ℚ) (xs : List PyVal) : Option ℚ :=
  if xs.length < 2 then Option.none
  else
    match normalizeSpec xs with
    | c0 :: c1 :: cs =>
      let lst := List.getLastD cs c1
      if c0 ≤ 0 ∨ lst ≤ 0 then Option.none
      else some (rt (lst / c0) (cs.length + 1) - 1)
    | _ => Option.none

/-- The `rpt_share_latest` value as claim C8 words it: the last entry of
the series when the series is non-empty and that entry is non-null,
`null` otherwise. -/
def rptLatestSpec (xs : List PyVal) : PyVal :=
  match xs.getLast? with
  | some v => if pyIsNone v then PyVal.none else v
  | Option.none => PyVal.none

/-- The non-null `amount_crore` of a `use_of_proceeds` item, read
numerically; claim C7 excludes null amounts from both sums. -/
def amountOf (item : PyVal) : Option ℚ :=
  match item with
  | .dict d =>
    match pyDictGetD d "amount_crore" with
    | .none => Option.none
    | v => pyToNum v
  | _ => Option.none

/-- Does the item's category (defaulted to `""` when falsy)
case-insensitively contain the substring `"general"`? -/
def catGeneralB (item : PyVal) : Bool :=
  match item with
  | .dict d =>
    match pyOr (pyDictGetD d "category") (.str "") with
    | .str s => strIn "general" (lowerStr s)
    | _ => false
  | _ => false

/-- Claim C7's `total`: the sum of all non-null amounts. -/
def gcpTotalSpec (items : List PyVal) : ℚ :=
  (items.filterMap amountOf).sum

/-- Claim C7's `gcp`: the sum of the non-null amounts whose category
contains `"general"`. -/
def gcpGcpSpec (items : List PyVal) : ℚ :=
  (items.filterMap
    (fun it => if catGeneralB it then amountOf it else Option.none)).sum

/-- Claim C7's `gcp_pct`: `gcp / total * 100` when `total > 0`, else
`null`. -/
def gcpPctSpec (items : List PyVal) : Option ℚ :=
  if gcpTotalSpec items > 0 then
    some (gcpGcpSpec items / gcpTotalSpec items * 100)
  else Option.none

/-- Claim C7's `gcp_high`: true iff `gcp_pct` is non-null and `> 30`. -/
def gcpHighSpec (items : List PyVal) : Bool :=
  match gcpPctSpec items with
  | some p => decide (p > 30)
  | Option.none => false

/-- Is the value a Python number (or bool, which arithmetic accepts)? -/
def isNumericPy (v : PyVal) : Bool :=
  match v with
  | .num _ => true
  | .bool _ => true
  | _ => false

/-- Shape condition on a raw revenue/receivables entry of `financials`:
when truthy it must be a list whose last element, if truthy, is
numeric (so that `rec[-1] / rev[-1]` cannot raise). -/
def seriesShapeOk (w : PyVal) : Bool :=
  if pyTruthy w then
    match w with
    | .list xs =>
      match xs.getLast? with
      | some v => !pyTruthy v || isNumericPy v
      | Option.none => true
    | _ => false
  else true

/-- Shape condition on the raw `rpt_revenue_pct` entry: when truthy it
must be a list whose last element is `None` or numeric (so that
`rpt[-1] > 20` cannot raise). -/
def rptShapeOk (w : PyVal) : Bool :=
  if pyTruthy w then
    match w with
    | .list xs =>
      match xs.getLast? with
      | some v => pyIsNone v || isNumericPy v
      | Option.none => true
    | _ => false
  else true

/-- Shape condition on a single `use_of_proceeds` item: a dict whose
`amount_crore` is `None` or numeric and whose `category` is falsy or a
string. -/
def uopItemOk (item : PyVal) : Bool :=
  match item with
  | .dict d =>
    (pyIsNone (pyDictGetD d "amount_crore") ||
      isNumericPy (pyDictGetD d "amount_crore")) &&
    (!pyTruthy (pyDictGetD d "category") ||
      (match pyDictGetD d "category" with
       | .str _ => true
       | _ => false))
  | _ => false

/-- Shape condition on the raw `use_of_proceeds` entry: when truthy it
must be a list of well-shaped items. -/
def uopShapeOk (w : PyVal) : Bool :=
  if pyTruthy w then
    match w with
    | .list xs => xs.all uopItemOk
    | _ => false
  else true

/-- A record that is well-typed but possibly incomplete in the sense of
the spec: `financials` is a dict when truthy, the revenue/receivables
series are lists with a numeric-or-falsy latest entry, the
related-party series is a list with a `None`-or-numeric latest entry,
and `use_of_proceeds` is a list of dicts with `None`-or-numeric amounts
and string-or-falsy categories.  Entries elsewhere (interior series
elements) are unconstrained: `cagr` absorbs them. -/
def wellShapedRecord (data : PyDict) : Bool :=
  (match pyDictGetD data "financials" with
   | .dict d =>
     seriesShapeOk (pyDictGetD d "revenue") &&
     seriesShapeOk (pyDictGetD d "trade_receivables") &&
     rptShapeOk (pyDictGetD d "rpt_revenue_pct")
   | v => !pyTruthy v) &&
  uopShapeOk (pyDictGetD data "use_of_proceeds")

/-- A root function usable for concrete witnesses (exact for `n = 1`,
where `x ** (1.0 / 1) = x`). -/
def rtId : ℚ → ℕ → ℚ := fun q _ => q

/-- A record whose financial series contain a malformed non-numeric
latest entry: `revenue = ["abc"]`, `trade_receivables = [5]`. -/
def cexData : PyDict :=
  [("financials", PyVal.dict
    [("revenue", PyVal.list [PyVal.str "abc"]),
     ("trade_receivables", PyVal.list [PyVal.num 5])])]

/-- The end-to-end example record of spec §8. -/
def dataEx : PyDict :=
  [("financials", PyVal.dict
     [("years", PyVal.list [PyVal.str "FY21", PyVal.str "FY22", PyVal.str "FY23"]),
      ("revenue", PyVal.list [PyVal.num 100, PyVal.num 110, PyVal.num 121]),
      ("trade_receivables", PyVal.list [PyVal.num 10, PyVal.num 15, PyVal.num 30]),
      ("rpt_revenue_pct", PyVal.list [PyVal.num 5, PyVal.num 5, PyVal.num 25])]),
   ("use_of_proceeds", PyVal.list
     [PyVal.dict [("category", PyVal.str "General corporate purposes"),
                  ("amount_crore", PyVal.num 40)],
      PyVal.dict [("category", PyVal.str "Debt repayment"),
                  ("amount_crore", PyVal.num 60)]])]

/-- The flags `compute_flags rtId dataEx` evaluates to. -/
def flagsEx : PyDict :=
  [("revenue_cagr", PyVal.num (21 / 100)),
   ("receivables_cagr", PyVal.num 2),
   ("receivables_grow_faster", PyVal.bool true),
   ("rec_to_rev_latest", PyVal.num (30 / 121)),
   ("rpt_share_latest", PyVal.num 25),
   ("rpt_share_high", PyVal.bool true),
   ("gcp_pct", PyVal.num 40),
   ("gcp_high", PyVal.bool true)]

lemma exbind_ok {α β : Type} {e : Except PyErr α} {f : α → Except PyErr β}
    {b : β} : exbind e f = .ok b ↔ ∃ a, e = .ok a ∧ f a = .ok b := by
  cases e <;> simp [exbind]

lemma valueOfEntry_eq_spec (x : PyVal) : valueOfEntry x = specEntryValue x := by
  cases x with
  | list xs =>
    match xs with
    | [] => rfl
    | [a] => rfl
    | a :: b :: l =>
      have h : 2 ≤ (a :: b :: l).length := by
        simp only [List.length_cons]
        omega
      simp [valueOfEntry, specEntryValue, h, List.getD]
  | none => rfl
  | bool b => rfl
  | num q => rfl
  | str s => rfl
  | dict d => rfl

lemma cleanedOf_eq_normalizeSpec (xs : List PyVal) :
    cleanedOf xs = normalizeSpec xs := by
  unfold cleanedOf normalizeSpec
  rw [List.filterMap_map]
  congr 1
  funext x
  simp only [Function.comp, coerceEntry, valueOfEntry_eq_spec]

lemma cagr_on_list (rt : ℚ → ℕ → ℚ) (xs : List PyVal) :
    cagr rt (PyVal.list xs) = .ok (cagrList rt xs) := by
  cases xs with
  | nil => rfl
  | cons a l =>
    simp [cagr, cagrList, pyTruthy, pyElems]
    split <;> rfl

lemma cagrList_eq_ref (rt : ℚ → ℕ → ℚ) (xs : List PyVal) :
    cagrList rt xs = cagrRefSpec rt xs := by
  unfold cagrList cagrRefSpec cagrCore
  rw [cleanedOf_eq_normalizeSpec]

/-- C3: for every raw series, the `cagr` helper equals the reference
definition: null for a series shorter than 2, null when fewer than 2
numeric values survive normalization, null when the first or last
normalized value is non-positive, and otherwise
`(last / first) ** (1 / n) - 1` with `n` the count of normalized values
minus 1 (missing interior periods compress `n`); this holds for every
model `rt` of the float power. -/
theorem cagr_matches_reference (rt : ℚ → ℕ → ℚ) (xs : List PyVal) :
    cagr rt (PyVal.list xs) = .ok (cagrRefSpec rt xs) := by
  rw [cagr_on_list, cagrList_eq_ref]

/-- C4: the numeric series normalization inside `cagr` agrees with the
spec's description (second component of pair-like elements, nulls
dropped, coercion failures dropped, order preserved); in particular
`[100, null, 144]` normalizes to `[100, 144]` and its CAGR is `0.44`
with `n = 1` (for any root function with `x ** (1/1) = x`). -/
theorem series_normalization_matches_spec :
    (∀ xs : List PyVal, cleanedOf xs = normalizeSpec xs) ∧
    cleanedOf [PyVal.num 100, PyVal.none, PyVal.num 144] = [100, 144] ∧
    (∀ rt : ℚ → ℕ → ℚ, rt (144 / 100) 1 = 144 / 100 →
      cagr rt (PyVal.list [PyVal.num 100, PyVal.none, PyVal.num 144]) =
        .ok (some (11 / 25))) := by
  refine ⟨cleanedOf_eq_normalizeSpec, by with_unfolding_all rfl, ?_⟩
  intro rt hrt
  have h1 : cleanedOf [PyVal.num 100, PyVal.none, PyVal.num 144] = [100, 144] := by
    with_unfolding_all rfl
  have h2 : cagr rt (PyVal.list [PyVal.num 100, PyVal.none, PyVal.num 144]) =
      .ok (cagrCore rt (cleanedOf [PyVal.num 100, PyVal.none, PyVal.num 144])) := rfl
  rw [h2, h1]
  norm_num at hrt
  norm_num [cagrCore, hrt]

/-- Witness for C4 at the concrete root function `rtId`. -/
theorem series_normalization_matches_spec_witness :
    cleanedOf [PyVal.num 100, PyVal.none, PyVal.num 144] = [100, 144] ∧
    cagr rtId (PyVal.list [PyVal.num 100, PyVal.none, PyVal.num 144]) =
      .ok (some (11 / 25)) :=
  ⟨series_normalization_matches_spec.2.1,
   series_normalization_matches_spec.2.2 rtId rfl⟩

lemma compute_flags_ok_parts {rt : ℚ → ℕ → ℚ} {data flags : PyDict}
    (h : compute_flags rt data = .ok flags) :
    ∃ rev rcv rp a b rtr rr items tg,
      revOf data = .ok rev ∧ recvOf data = .ok rcv ∧ rptOf data = .ok rp ∧
      cagr rt rev = .ok a ∧ cagr rt rcv = .ok b ∧
      recToRevFlag rev rcv = .ok rtr ∧ rptFlags rp = .ok rr ∧
      pyElems (uopOf data) = .ok items ∧ uopLoop items 0 0 = .ok tg ∧
      flags = flagsOut a b rtr rr.1 rr.2 tg := by
  simp only [compute_flags, exbind_ok] at h
  obtain ⟨ys, hys, rev, hrev, rcv, hrcv, rp, hrp, a, ha, b, hb, rtr, hrtr,
    rr, hrr, items, hitems, tg, htg, hfl⟩ := h
  exact ⟨rev, rcv, rp, a, b, rtr, rr, items, tg, hrev, hrcv, hrp, ha, hb,
    hrtr, hrr, hitems, htg, (Except.ok.inj hfl).symm⟩

lemma flagsOut_growFaster (a b : Option ℚ) (rtr rsl : PyVal) (rsh : Bool)
    (tg : ℚ × ℚ) :
    pyLookup (flagsOut a b rtr rsl rsh tg) "receivables_grow_faster" =
      some (.bool (growFasterFlag a b)) := by with_unfolding_all rfl

lemma flagsOut_recToRev (a b : Option ℚ) (rtr rsl : PyVal) (rsh : Bool)
    (tg : ℚ × ℚ) :
    pyLookup (flagsOut a b rtr rsl rsh tg) "rec_to_rev_latest" = some rtr := by
  with_unfolding_all rfl

lemma flagsOut_rptLatest (a b : Option ℚ) (rtr rsl : PyVal) (rsh : Bool)
    (tg : ℚ × ℚ) :
    pyLookup (flagsOut a b rtr rsl rsh tg) "rpt_share_latest" = some rsl := by
  with_unfolding_all rfl

lemma flagsOut_rptHigh (a b : Option ℚ) (rtr rsl : PyVal) (rsh : Bool)
    (tg : ℚ × ℚ) :
    pyLookup (flagsOut a b rtr rsl rsh tg) "rpt_share_high" =
      some (.bool rsh) := by with_unfolding_all rfl

lemma flagsOut_gcpPct (a b : Option ℚ) (rtr rsl : PyVal) (rsh : Bool)
    (tg : ℚ × ℚ) :
    pyLookup (flagsOut a b rtr rsl rsh tg) "gcp_pct" =
      some (optToPy (if tg.1 > 0 then some (tg.2 / tg.1 * 100) else Option.none)) := by
  with_unfolding_all rfl

lemma flagsOut_gcpHigh (a b : Option ℚ) (rtr rsl : PyVal) (rsh : Bool)
    (tg : ℚ × ℚ) :
    pyLookup (flagsOut a b rtr rsl rsh tg) "gcp_high" =
      some (.bool (gcpHighOf (if tg.1 > 0 then some (tg.2 / tg.1 * 100) else Option.none))) := by
  with_unfolding_all rfl

lemma flagsOut_keys (a b : Option ℚ) (rtr rsl : PyVal) (rsh : Bool)
    (tg : ℚ × ℚ) :
    pyKeys (flagsOut a b rtr rsl rsh tg) =
      ["revenue_cagr", "receivables_cagr", "receivables_grow_faster",
       "rec_to_rev_latest", "rpt_share_latest", "rpt_share_high",
       "gcp_pct", "gcp_high"] := by with_unfolding_all rfl

/-- C5: the `receivables_grow_faster` signal is the boolean
`growFasterFlag` of the two CAGRs, and that boolean is true iff both
CAGRs are non-null and the receivables CAGR exceeds the revenue CAGR by
more than `0.05`; with either CAGR null it is false, not null. -/
theorem receivables_grow_faster_correct (rt : ℚ → ℕ → ℚ)
    (data flags : PyDict) (rv rc : PyVal) (oa ob : Option ℚ)
    (h : compute_flags rt data = .ok flags)
    (hrv : revOf data = .ok rv) (hrc : recvOf data = .ok rc)
    (ha : cagr rt rv = .ok oa) (hb : cagr rt rc = .ok ob) :
    pyLookup flags "receivables_grow_faster" =
      some (.bool (growFasterFlag oa ob)) ∧
    (growFasterFlag oa ob = true ↔
      ∃ x y, oa = some x ∧ ob = some y ∧ x + 1 / 20 < y) := by
  obtain ⟨rev, rcv, rp, a, b, rtr, rr, items, tg, h1, h2, h3, h4, h5, h6,
    h7, h8, h9, h10⟩ := compute_flags_ok_parts h
  cases Except.ok.inj (hrv.symm.trans h1)
  cases Except.ok.inj (hrc.symm.trans h2)
  cases Except.ok.inj (ha.symm.trans h4)
  cases Except.ok.inj (hb.symm.trans h5)
  subst h10
  refine ⟨flagsOut_growFaster oa ob rtr rr.1 rr.2 tg, ?_⟩
  cases oa <;> cases ob <;> simp [growFasterFlag]

/-- Witness for C5 at the spec §8 record: both CAGRs are non-null and
the flag is true. -/
theorem receivables_grow_faster_correct_witness :
    pyLookup flagsEx "receivables_grow_faster" =
      some (.bool (growFasterFlag (some (21 / 100)) (some 2))) ∧
    (growFasterFlag (some (21 / 100)) (some 2) = true ↔
      ∃ x y, some (21 / 100) = some x ∧ (some (2 : ℚ)) = some y ∧
        x + 1 / 20 < y) :=
  receivables_grow_faster_correct rtId dataEx flagsEx
    (PyVal.list [PyVal.num 100, PyVal.num 110, PyVal.num 121])
    (PyVal.list [PyVal.num 10, PyVal.num 15, PyVal.num 30])
    (some (21 / 100)) (some 2)
    (by with_unfolding_all rfl) (by with_unfolding_all rfl)
    (by with_unfolding_all rfl) (by with_unfolding_all rfl)
    (by with_unfolding_all rfl)

/-- C9: every successful `compute_flags` result has exactly the eight
keys, in insertion order, and the three signals
`receivables_grow_faster`, `rpt_share_high`, `gcp_high` are always
booleans, never null. -/
theorem signalset_keys_and_bools (rt : ℚ → ℕ → ℚ) (data flags : PyDict)
    (h : compute_flags rt data = .ok flags) :
    pyKeys flags =
      ["revenue_cagr", "receivables_cagr", "receivables_grow_faster",
       "rec_to_rev_latest", "rpt_share_latest", "rpt_share_high",
       "gcp_pct", "gcp_high"] ∧
    (∃ b, pyLookup flags "receivables_grow_faster" = some (.bool b)) ∧
    (∃ b, pyLookup flags "rpt_share_high" = some (.bool b)) ∧
    (∃ b, pyLookup flags "gcp_high" = some (.bool b)) := by
  obtain ⟨rev, rcv, rp, a, b, rtr, rr, items, tg, h1, h2, h3, h4, h5, h6,
    h7, h8, h9, h10⟩ := compute_flags_ok_parts h
  subst h10
  exact ⟨flagsOut_keys a b rtr rr.1 rr.2 tg,
    ⟨growFasterFlag a b, flagsOut_growFaster a b rtr rr.1 rr.2 tg⟩,
    ⟨rr.2, flagsOut_rptHigh a b rtr rr.1 rr.2 tg⟩,
    ⟨gcpHighOf (if tg.1 > 0 then some (tg.2 / tg.1 * 100) else Option.none),
      flagsOut_gcpHigh a b rtr rr.1 rr.2 tg⟩⟩

/-- Witness for C9 at the spec §8 record. -/
theorem signalset_keys_and_bools_witness :
    pyKeys flagsEx =
      ["revenue_cagr", "receivables_cagr", "receivables_grow_faster",
       "rec_to_rev_latest", "rpt_share_latest", "rpt_share_high",
       "gcp_pct", "gcp_high"] ∧
    (∃ b, pyLookup flagsEx "receivables_grow_faster" = some (.bool b)) ∧
    (∃ b, pyLookup flagsEx "rpt_share_high" = some (.bool b)) ∧
    (∃ b, pyLookup flagsEx "gcp_high" = some (.bool b)) :=
  signalset_keys_and_bools rtId dataEx flagsEx (by with_unfolding_all rfl)

lemma pyIsNone_false_ne {v : PyVal} (h : pyIsNone v = false) : v ≠ PyVal.none := by
  intro he
  subst he
  simp [pyIsNone] at h

lemma recToRevFlag_spec (rv rc rtr : PyVal)
    (h : recToRevFlag rv rc = .ok rtr) :
    (∀ lv lc q, pyLastIndex rv = .ok lv → pyLastIndex rc = .ok lc →
      pyTruthy rv = true → pyTruthy rc = true →
      pyTruthy lv = true → pyTruthy lc = true →
      pyDiv lc lv = .ok q → rtr = .num q) ∧
    ((pyTruthy rv = false ∨ pyTruthy rc = false ∨
      (∃ lv, pyLastIndex rv = .ok lv ∧ pyTruthy lv = false) ∨
      (∃ lc, pyLastIndex rc = .ok lc ∧ pyTruthy lc = false)) →
      rtr = PyVal.none) := by
  by_cases t1 : pyTruthy rv
  · by_cases t2 : pyTruthy rc
    · cases hplv : pyLastIndex rv with
      | error e => simp [recToRevFlag, t1, t2, hplv] at h
      | ok lv' =>
        by_cases t3 : pyTruthy lv'
        · cases hplc : pyLastIndex rc with
          | error e => simp [recToRevFlag, t1, t2, hplv, t3, hplc] at h
          | ok lc' =>
            by_cases t4 : pyTruthy lc'
            · cases hdv : pyDiv lc' lv' with
              | error e =>
                simp [recToRevFlag, t1, t2, hplv, t3, hplc, t4, hdv] at h
              | ok q' =>
                simp [recToRevFlag, t1, t2, hplv, t3, hplc, t4, hdv] at h
                constructor
                · intro lv lc q hlv hlc _ _ _ _ hdiv
                  cases Except.ok.inj hlv
                  cases Except.ok.inj hlc
                  cases Except.ok.inj (hdv.symm.trans hdiv)
                  exact h.symm
                · intro hd
                  rcases hd with hd | hd | ⟨lv, hlv, hflv⟩ | ⟨lc, hlc, hflc⟩
                  · exact absurd hd (by simp [t1])
                  · exact absurd hd (by simp [t2])
                  · cases Except.ok.inj hlv
                    exact absurd hflv (by simp [t3])
                  · cases Except.ok.inj hlc
                    exact absurd hflc (by simp [t4])
            · simp [recToRevFlag, t1, t2, hplv, t3, hplc, t4] at h
              refine ⟨?_, fun _ => h.symm⟩
              intro lv lc q hlv hlc _ _ _ htlc _
              cases Except.ok.inj hlc
              exact absurd htlc (by simp [t4])
        · simp [recToRevFlag, t1, t2, hplv, t3] at h
          refine ⟨?_, fun _ => h.symm⟩
          intro lv lc q hlv hlc _ _ htlv _ _
          cases Except.ok.inj hlv
          exact absurd htlv (by simp [t3])
    · simp [recToRevFlag, t1, t2] at h
      refine ⟨?_, fun _ => h.symm⟩
      intro lv lc q _ _ _ htc _ _ _
      exact absurd htc (by simp [t2])
  · simp [recToRevFlag, t1] at h
    refine ⟨?_, fun _ => h.symm⟩
    intro lv lc q _ _ htv _ _ _ _
    exact absurd htv (by simp [t1])

/-- C6: the `rec_to_rev_latest` signal is the raw last receivables
entry divided by the raw last revenue entry when both series and both
latest entries are truthy, and null whenever either series or either
latest entry is falsy (absent, zero, or otherwise falsy). -/
theorem rec_to_rev_latest_correct (rt : ℚ → ℕ → ℚ) (data flags : PyDict)
    (rv rc : PyVal)
    (h : compute_flags rt data = .ok flags)
    (hrv : revOf data = .ok rv) (hrc : recvOf data = .ok rc) :
    (∀ lv lc q, pyLastIndex rv = .ok lv → pyLastIndex rc = .ok lc →
      pyTruthy rv = true → pyTruthy rc = true →
      pyTruthy lv = true → pyTruthy lc = true →
      pyDiv lc lv = .ok q →
      pyLookup flags "rec_to_rev_latest" = some (.num q)) ∧
    ((pyTruthy rv = false ∨ pyTruthy rc = false ∨
      (∃ lv, pyLastIndex rv = .ok lv ∧ pyTruthy lv = false) ∨
      (∃ lc, pyLastIndex rc = .ok lc ∧ pyTruthy lc = false)) →
      pyLookup flags "rec_to_rev_latest" = some PyVal.none) := by
  obtain ⟨rev, rcv, rp, a, b, rtr, rr, items, tg, h1, h2, h3, h4, h5, h6,
    h7, h8, h9, h10⟩ := compute_flags_ok_parts h
  cases Except.ok.inj (hrv.symm.trans h1)
  cases Except.ok.inj (hrc.symm.trans h2)
  subst h10
  obtain ⟨hpos, hneg⟩ := recToRevFlag_spec rv rc rtr h6
  constructor
  · intro lv lc q hlv hlc htv htc htlv htlc hdiv
    rw [flagsOut_recToRev, hpos lv lc q hlv hlc htv htc htlv htlc hdiv]
  · intro hd
    rw [flagsOut_recToRev, hneg hd]

/-- Witness for C6 at the spec §8 record: the latest entries are `121`
and `30` and the signal is `30 / 121`. -/
theorem rec_to_rev_latest_correct_witness :
    pyLookup flagsEx "rec_to_rev_latest" = some (.num (30 / 121)) :=
  (rec_to_rev_latest_correct rtId dataEx flagsEx
    (PyVal.list [PyVal.num 100, PyVal.num 110, PyVal.num 121])
    (PyVal.list [PyVal.num 10, PyVal.num 15, PyVal.num 30])
    (by with_unfolding_all rfl) (by with_unfolding_all rfl)
    (by with_unfolding_all rfl)).1
    (PyVal.num 121) (PyVal.num 30) (30 / 121)
    (by with_unfolding_all rfl) (by with_unfolding_all rfl)
    (by with_unfolding_all rfl) (by with_unfolding_all rfl)
    (by with_unfolding_all rfl) (by with_unfolding_all rfl)
    (by with_unfolding_all rfl)

lemma rptFlags_spec (xs : List PyVal) (rr : PyVal × Bool)
    (h : rptFlags (.list xs) = .ok rr) :
    rr.1 = rptLatestSpec xs ∧
    (rr.2 = true ↔ (rptLatestSpec xs ≠ PyVal.none ∧
      pyGtNum (rptLatestSpec xs) 20 = .ok true)) := by
  cases hl : xs.getLast? with
  | none =>
    rw [List.getLast?_eq_none_iff] at hl
    subst hl
    simp [rptFlags, pyTruthy] at h
    simp [rptLatestSpec, ← h]
  | some v =>
    have hne : xs ≠ [] := by
      intro he
      subst he
      simp at hl
    have htr : pyTruthy (PyVal.list xs) = true := by
      simp [pyTruthy, List.isEmpty_iff, hne]
    have hlast : pyLastIndex (PyVal.list xs) = .ok v := by
      simp [pyLastIndex, hl]
    cases hn : pyIsNone v with
    | true =>
      have hv : v = PyVal.none := by
        cases v <;> simp [pyIsNone] at hn ⊢
      subst hv
      simp [rptFlags, htr, hlast, pyIsNone] at h
      simp [rptLatestSpec, hl, pyIsNone, ← h]
    | false =>
      cases hgt : pyGtNum v 20 with
      | error e => simp [rptFlags, htr, hlast, hn, hgt] at h
      | ok b =>
        simp [rptFlags, htr, hlast, hn, hgt] at h
        have hspec : rptLatestSpec xs = v := by
          simp [rptLatestSpec, hl, hn]
        have hvne : v ≠ PyVal.none := pyIsNone_false_ne hn
        rw [hspec, ← h]
        exact ⟨rfl, by simp [hgt, hvne]⟩

/-- C8: `rpt_share_latest` is the last entry of the `rpt_revenue_pct`
series when the series is non-empty and that entry is non-null, null
otherwise; and `rpt_share_high` is the boolean that is true iff that
latest value is non-null and greater than 20. -/
theorem rpt_share_correct (rt : ℚ → ℕ → ℚ) (data flags : PyDict)
    (xs : List PyVal)
    (h : compute_flags rt data = .ok flags)
    (hrp : rptOf data = .ok (.list xs)) :
    pyLookup flags "rpt_share_latest" = some (rptLatestSpec xs) ∧
    ∃ b, pyLookup flags "rpt_share_high" = some (.bool b) ∧
      (b = true ↔ (rptLatestSpec xs ≠ PyVal.none ∧
        pyGtNum (rptLatestSpec xs) 20 = .ok true)) := by
  obtain ⟨rev, rcv, rp, a, b, rtr, rr, items, tg, h1, h2, h3, h4, h5, h6,
    h7, h8, h9, h10⟩ := compute_flags_ok_parts h
  cases Except.ok.inj (hrp.symm.trans h3)
  subst h10
  obtain ⟨hfst, hsnd⟩ := rptFlags_spec xs rr h7
  exact ⟨hfst ▸ flagsOut_rptLatest a b rtr rr.1 rr.2 tg,
    rr.2, flagsOut_rptHigh a b rtr rr.1 rr.2 tg, hsnd⟩

/-- Witness for C8 at the spec §8 record: the latest entry is `25` and
the flag is true. -/
theorem rpt_share_correct_witness :
    pyLookup flagsEx "rpt_share_latest" =
      some (rptLatestSpec [PyVal.num 5, PyVal.num 5, PyVal.num 25]) ∧
    ∃ b, pyLookup flagsEx "rpt_share_high" = some (.bool b) ∧
      (b = true ↔
        (rptLatestSpec [PyVal.num 5, PyVal.num 5, PyVal.num 25] ≠ PyVal.none ∧
         pyGtNum (rptLatestSpec [PyVal.num 5, PyVal.num 5, PyVal.num 25]) 20 =
           .ok true)) :=
  rpt_share_correct rtId dataEx flagsEx
    [PyVal.num 5, PyVal.num 5, PyVal.num 25]
    (by with_unfolding_all rfl) (by with_unfolding_all rfl)


lemma gcpTotalSpec_cons (item : PyVal) (rest : List PyVal) :
    gcpTotalSpec (item :: rest) =
      (amountOf item).getD 0 + gcpTotalSpec rest := by
  simp only [gcpTotalSpec, List.filterMap_cons]
  cases amountOf item <;> simp

lemma gcpGcpSpec_cons (item : PyVal) (rest : List PyVal) :
    gcpGcpSpec (item :: rest) =
      (if catGeneralB item then (amountOf item).getD 0 else 0) +
        gcpGcpSpec rest := by
  simp only [gcpGcpSpec, List.filterMap_cons]
  cases hc : catGeneralB item <;> cases ha : amountOf item <;> simp [hc, ha]

lemma uopLoop_sums (items : List PyVal) : ∀ t g T G : ℚ,
    uopLoop items t g = .ok (T, G) →
    T = t + gcpTotalSpec items ∧ G = g + gcpGcpSpec items := by
  induction items with
  | nil =>
    intro t g T G h
    simp only [uopLoop, Except.ok.injEq, Prod.mk.injEq] at h
    simp [gcpTotalSpec, gcpGcpSpec, ← h.1, ← h.2]
  | cons item rest ih =>
    intro t g T G h
    simp only [uopLoop, exbind_ok] at h
    obtain ⟨amt, hamt, cv, hcv, cat, hcat, hres⟩ := h
    cases item with
    | none => simp [pyGet] at hamt
    | bool b => simp [pyGet] at hamt
    | num q => simp [pyGet] at hamt
    | str s => simp [pyGet] at hamt
    | list l => simp [pyGet] at hamt
    | dict d =>
      simp only [pyGet, Except.ok.injEq] at hamt hcv
      cases hpo : pyOr cv (.str "") with
      | none => rw [hpo] at hcat; simp [pyLower] at hcat
      | bool b2 => rw [hpo] at hcat; simp [pyLower] at hcat
      | num q2 => rw [hpo] at hcat; simp [pyLower] at hcat
      | list l2 => rw [hpo] at hcat; simp [pyLower] at hcat
      | dict d2 => rw [hpo] at hcat; simp [pyLower] at hcat
      | str s =>
        have hcat' : cat = lowerStr s := by
          rw [hpo] at hcat
          simpa [pyLower] using hcat.symm
        have hcg : catGeneralB (PyVal.dict d) = strIn "general" cat := by
          simp [catGeneralB, hcv, hpo, hcat']
        cases hai : pyIsNone amt with
        | true =>
          simp only [hai, if_true] at hres
          obtain ⟨hT, hG⟩ := ih t g T G hres
          have hv : amt = PyVal.none := by
            cases amt <;> simp [pyIsNone] at hai ⊢
          have hao : amountOf (PyVal.dict d) = Option.none := by
            simp [amountOf, hamt, hv]
          constructor
          · rw [hT, gcpTotalSpec_cons, hao]
            simp
          · rw [hG, gcpGcpSpec_cons, hao]
            cases catGeneralB (PyVal.dict d) <;> simp
        | false =>
          simp only [hai, Bool.false_eq_true, if_false, exbind_ok] at hres
          obtain ⟨a, ha, hloop⟩ := hres
          have hpn : pyToNum amt = some a := by
            cases hx : pyToNum amt with
            | none => simp [pyToNumE, hx] at ha
            | some q =>
              simp only [pyToNumE, hx, Except.ok.injEq] at ha
              rw [ha]
          obtain ⟨hT, hG⟩ :=
            ih (t + a) (if strIn "general" cat then g + a else g) T G hloop
          have hao : amountOf (PyVal.dict d) = some a := by
            cases amt with
            | none => simp [pyIsNone] at hai
            | bool b2 => simpa [amountOf, hamt] using hpn
            | num q2 => simpa [amountOf, hamt] using hpn
            | str s2 => simpa [amountOf, hamt] using hpn
            | list l2 => simpa [amountOf, hamt] using hpn
            | dict d2 => simpa [amountOf, hamt] using hpn
          constructor
          · rw [hT, gcpTotalSpec_cons, hao]
            simp [add_assoc]
          · rw [hG, gcpGcpSpec_cons, hao, hcg]
            cases hgen : strIn "general" cat <;> simp [hgen, add_assoc]

/-- C7: `gcp_pct` is `gcp / total * 100` where `total` sums the
non-null `amount_crore` values and `gcp` those whose category
case-insensitively contains `"general"`, provided `total > 0`; null
amounts are excluded from both sums; the result is null when `total`
is not positive; and `gcp_high` is true iff `gcp_pct` is non-null and
greater than 30. -/
theorem gcp_pct_correct (rt : ℚ → ℕ → ℚ) (data flags : PyDict)
    (items : List PyVal)
    (h : compute_flags rt data = .ok flags)
    (hitems : pyElems (uopOf data) = .ok items) :
    pyLookup flags "gcp_pct" = some (optToPy (gcpPctSpec items)) ∧
    pyLookup flags "gcp_high" = some (.bool (gcpHighSpec items)) := by
  obtain ⟨rev, rcv, rp, a, b, rtr, rr, items', tg, h1, h2, h3, h4, h5, h6,
    h7, h8, h9, h10⟩ := compute_flags_ok_parts h
  cases Except.ok.inj (hitems.symm.trans h8)
  subst h10
  obtain ⟨hT, hG⟩ := uopLoop_sums items 0 0 tg.1 tg.2 h9
  have htg1 : tg.1 = gcpTotalSpec items := by rw [hT]; ring
  have htg2 : tg.2 = gcpGcpSpec items := by rw [hG]; ring
  have hpct : (if tg.1 > 0 then some (tg.2 / tg.1 * 100) else Option.none) =
      gcpPctSpec items := by
    rw [htg1, htg2, gcpPctSpec]
  have hhigh : gcpHighOf (gcpPctSpec items) = gcpHighSpec items := rfl
  constructor
  · rw [flagsOut_gcpPct, hpct]
  · rw [flagsOut_gcpHigh, hpct, hhigh]

/-- Witness for C7 at the spec §8 record: total `100`, general `40`,
`gcp_pct = 40`, `gcp_high = true`. -/
theorem gcp_pct_correct_witness :
    pyLookup flagsEx "gcp_pct" =
      some (optToPy (gcpPctSpec
        [PyVal.dict [("category", PyVal.str "General corporate purposes"),
                     ("amount_crore", PyVal.num 40)],
         PyVal.dict [("category", PyVal.str "Debt repayment"),
                     ("amount_crore", PyVal.num 60)]])) ∧
    pyLookup flagsEx "gcp_high" =
      some (.bool (gcpHighSpec
        [PyVal.dict [("category", PyVal.str "General corporate purposes"),
                     ("amount_crore", PyVal.num 40)],
         PyVal.dict [("category", PyVal.str "Debt repayment"),
                     ("amount_crore", PyVal.num 60)]])) :=
  gcp_pct_correct rtId dataEx flagsEx
    [PyVal.dict [("category", PyVal.str "General corporate purposes"),
                 ("amount_crore", PyVal.num 40)],
     PyVal.dict [("category", PyVal.str "Debt repayment"),
                 ("amount_crore", PyVal.num 60)]]
    (by with_unfolding_all rfl) (by with_unfolding_all rfl)

lemma pyOr_dict_self (d : List (String × PyVal)) :
    pyOr (PyVal.dict d) (PyVal.dict []) = PyVal.dict d := by
  cases d <;> simp [pyOr, pyTruthy]

lemma getLast_exists_of_truthy {xs : List PyVal}
    (h : pyTruthy (PyVal.list xs) = true) : ∃ v, xs.getLast? = some v := by
  cases hgl : xs.getLast? with
  | some v => exact ⟨v, rfl⟩
  | none =>
    rw [List.getLast?_eq_none_iff] at hgl
    subst hgl
    simp [pyTruthy] at h

lemma seriesShape_list (w : PyVal) (h : seriesShapeOk w = true) :
    ∃ xs : List PyVal, pyOr w (PyVal.list []) = PyVal.list xs ∧
      (∀ v, xs.getLast? = some v → pyTruthy v = true → isNumericPy v = true) := by
  cases ht : pyTruthy w with
  | false => exact ⟨[], by simp [pyOr, ht], by simp⟩
  | true =>
    cases w with
    | list xs =>
      refine ⟨xs, by simp [pyOr, ht], ?_⟩
      intro v hl htv
      simp only [seriesShapeOk, ht, if_true, hl] at h
      simpa [htv] using h
    | none => simp [seriesShapeOk, ht] at h
    | bool b => simp [seriesShapeOk, ht] at h
    | num q => simp [seriesShapeOk, ht] at h
    | str s => simp [seriesShapeOk, ht] at h
    | dict d => simp [seriesShapeOk, ht] at h

lemma rptShape_list (w : PyVal) (h : rptShapeOk w = true) :
    ∃ xs : List PyVal, pyOr w (PyVal.list []) = PyVal.list xs ∧
      (∀ v, xs.getLast? = some v →
        pyIsNone v = true ∨ isNumericPy v = true) := by
  cases ht : pyTruthy w with
  | false => exact ⟨[], by simp [pyOr, ht], by simp⟩
  | true =>
    cases w with
    | list xs =>
      refine ⟨xs, by simp [pyOr, ht], ?_⟩
      intro v hl
      simp only [rptShapeOk, ht, if_true, hl] at h
      simpa using h
    | none => simp [rptShapeOk, ht] at h
    | bool b => simp [rptShapeOk, ht] at h
    | num q => simp [rptShapeOk, ht] at h
    | str s => simp [rptShapeOk, ht] at h
    | dict d => simp [rptShapeOk, ht] at h

lemma uopShape_list (w : PyVal) (h : uopShapeOk w = true) :
    ∃ xs : List PyVal, pyOr w (PyVal.list []) = PyVal.list xs ∧
      (∀ it ∈ xs, uopItemOk it = true) := by
  cases ht : pyTruthy w with
  | false => exact ⟨[], by simp [pyOr, ht], by simp⟩
  | true =>
    cases w with
    | list xs =>
      refine ⟨xs, by simp [pyOr, ht], ?_⟩
      simp only [uopShapeOk, ht, if_true, List.all_eq_true] at h
      exact h
    | none => simp [uopShapeOk, ht] at h
    | bool b => simp [uopShapeOk, ht] at h
    | num q => simp [uopShapeOk, ht] at h
    | str s => simp [uopShapeOk, ht] at h
    | dict d => simp [uopShapeOk, ht] at h

lemma numeric_truthy_toNum {v : PyVal} (hn : isNumericPy v = true)
    (ht : pyTruthy v = true) : ∃ q, pyToNum v = some q ∧ q ≠ 0 := by
  cases v with
  | num q => exact ⟨q, rfl, by simpa [pyTruthy] using ht⟩
  | bool b =>
    cases b with
    | false => simp [pyTruthy] at ht
    | true => exact ⟨1, rfl, one_ne_zero⟩
  | none => simp [isNumericPy] at hn
  | str s => simp [isNumericPy] at hn
  | list l => simp [isNumericPy] at hn
  | dict d => simp [isNumericPy] at hn

lemma numeric_toNum {v : PyVal} (hn : isNumericPy v = true) :
    ∃ q, pyToNum v = some q := by
  cases v with
  | num q => exact ⟨q, rfl⟩
  | bool b => exact ⟨if b then 1 else 0, rfl⟩
  | none => simp [isNumericPy] at hn
  | str s => simp [isNumericPy] at hn
  | list l => simp [isNumericPy] at hn
  | dict d => simp [isNumericPy] at hn

lemma recToRevFlag_total (xs ys : List PyVal)
    (hx : ∀ v, xs.getLast? = some v → pyTruthy v = true → isNumericPy v = true)
    (hy : ∀ v, ys.getLast? = some v → pyTruthy v = true → isNumericPy v = true) :
    ∃ r, recToRevFlag (PyVal.list xs) (PyVal.list ys) = .ok r := by
  cases htx : pyTruthy (PyVal.list xs) with
  | false => exact ⟨PyVal.none, by simp [recToRevFlag, htx]⟩
  | true =>
    cases hty : pyTruthy (PyVal.list ys) with
    | false => exact ⟨PyVal.none, by simp [recToRevFlag, htx, hty]⟩
    | true =>
      obtain ⟨lv, hlv⟩ := getLast_exists_of_truthy htx
      obtain ⟨lc, hlc⟩ := getLast_exists_of_truthy hty
      have hplv : pyLastIndex (PyVal.list xs) = .ok lv := by
        simp [pyLastIndex, hlv]
      have hplc : pyLastIndex (PyVal.list ys) = .ok lc := by
        simp [pyLastIndex, hlc]
      cases htlv : pyTruthy lv with
      | false =>
        exact ⟨PyVal.none, by simp [recToRevFlag, htx, hty, hplv, htlv]⟩
      | true =>
        cases htlc : pyTruthy lc with
        | false =>
          exact ⟨PyVal.none,
            by simp [recToRevFlag, htx, hty, hplv, htlv, hplc, htlc]⟩
        | true =>
          obtain ⟨y, hy2, hy0⟩ := numeric_truthy_toNum (hx lv hlv htlv) htlv
          obtain ⟨x, hx2⟩ := numeric_toNum (hy lc hlc htlc)
          exact ⟨PyVal.num (x / y),
            by simp [recToRevFlag, htx, hty, hplv, htlv, hplc, htlc,
              pyDiv, hx2, hy2, hy0]⟩

lemma rptFlags_total (xs : List PyVal)
    (hx : ∀ v, xs.getLast? = some v →
      pyIsNone v = true ∨ isNumericPy v = true) :
    ∃ r, rptFlags (PyVal.list xs) = .ok r := by
  cases htx : pyTruthy (PyVal.list xs) with
  | false => exact ⟨(.none, false), by simp [rptFlags, htx]⟩
  | true =>
    obtain ⟨v, hv⟩ := getLast_exists_of_truthy htx
    have hpl : pyLastIndex (PyVal.list xs) = .ok v := by
      simp [pyLastIndex, hv]
    cases hn : pyIsNone v with
    | true => exact ⟨(.none, false), by simp [rptFlags, htx, hpl, hn]⟩
    | false =>
      rcases hx v hv with h1 | h1
      · rw [h1] at hn
        cases hn
      · obtain ⟨p, hp⟩ := numeric_toNum h1
        exact ⟨(v, decide ((20 : ℚ) < p)),
          by simp [rptFlags, htx, hpl, hn, pyGtNum, hp]⟩

lemma uopLoop_total : ∀ items : List PyVal,
    (∀ it ∈ items, uopItemOk it = true) →
    ∀ t g : ℚ, ∃ r, uopLoop items t g = .ok r := by
  intro items
  induction items with
  | nil => exact fun _ t g => ⟨(t, g), rfl⟩
  | cons item rest ih =>
    intro hok t g
    have hitem := hok item (List.mem_cons_self item rest)
    have hrest : ∀ it ∈ rest, uopItemOk it = true :=
      fun it hit => hok it (List.mem_cons_of_mem item hit)
    cases item with
    | none => simp [uopItemOk] at hitem
    | bool b => simp [uopItemOk] at hitem
    | num q => simp [uopItemOk] at hitem
    | str s => simp [uopItemOk] at hitem
    | list l => simp [uopItemOk] at hitem
    | dict d =>
      simp only [uopItemOk, Bool.and_eq_true] at hitem
      obtain ⟨hamt, hcat⟩ := hitem
      obtain ⟨s, hs⟩ : ∃ s,
          pyOr (pyDictGetD d "category") (PyVal.str "") = PyVal.str s := by
        cases htc : pyTruthy (pyDictGetD d "category") with
        | false => exact ⟨"", by simp [pyOr, htc]⟩
        | true =>
          rw [htc] at hcat
          cases hcv : pyDictGetD d "category" with
          | str s2 =>
            refine ⟨s2, ?_⟩
            rw [hcv] at htc
            simp [pyOr, hcv, htc]
          | none => rw [hcv] at hcat; simp at hcat
          | bool b2 => rw [hcv] at hcat; simp at hcat
          | num q2 => rw [hcv] at hcat; simp at hcat
          | list l2 => rw [hcv] at hcat; simp at hcat
          | dict d2 => rw [hcv] at hcat; simp at hcat
      cases hai : pyIsNone (pyDictGetD d "amount_crore") with
      | true =>
        obtain ⟨r, hr⟩ := ih hrest t g
        exact ⟨r, by simp [uopLoop, exbind, pyGet, hs, pyLower, hai, hr]⟩
      | false =>
        rw [hai] at hamt
        simp only [Bool.false_or] at hamt
        obtain ⟨a, ha⟩ := numeric_toNum hamt
        obtain ⟨r, hr⟩ :=
          ih hrest (t + a) (if strIn "general" (lowerStr s) then g + a else g)
        exact ⟨r, by simp [uopLoop, exbind, pyGet, hs, pyLower, hai,
          pyToNumE, ha, hr]⟩

/-- Counterexample to C1 as stated: on a record whose revenue series
holds the malformed string `"abc"` and whose receivables series holds
`5`, `compute_flags` reaches `rec[-1] / rev[-1]` with a truthy
non-numeric operand and raises `TypeError` instead of absorbing the
malformed entry. -/
theorem compute_flags_raises_on_malformed_latest :
    compute_flags rtId cexData = .error PyErr.typeError := by
  with_unfolding_all rfl

/-- C1 (amended): `compute_flags` returns a `SignalSet` without raising
for every well-shaped record — `financials` a dict when truthy; the
revenue and receivables series lists (when truthy) whose latest entry
is numeric or falsy (the `rev and rec and rev[-1] and rec[-1]` guard
short-circuits on a falsy entry before the division); the
`rpt_revenue_pct` series a list (when truthy) whose latest entry is
null or numeric (the guard there is `is not None`, so a falsy non-null
entry such as `""` would still reach `rpt[-1] > 20` and raise); and
`use_of_proceeds` a list of dicts with null-or-numeric amounts and
string-or-falsy categories.  Malformed entries elsewhere in the series
(interior positions) are absorbed by the CAGR normalization.  A truthy
non-numeric latest entry, by contrast, makes `compute_flags` raise
(see the counterexample). -/
theorem compute_flags_total_on_wellShaped (rt : ℚ → ℕ → ℚ) (data : PyDict)
    (h : wellShapedRecord data = true) :
    ∃ flags, compute_flags rt data = .ok flags := by
  unfold wellShapedRecord at h
  rw [Bool.and_eq_true] at h
  obtain ⟨hf, hu⟩ := h
  have hfin : ∃ d, finOf data = PyVal.dict d ∧
      seriesShapeOk (pyDictGetD d "revenue") = true ∧
      seriesShapeOk (pyDictGetD d "trade_receivables") = true ∧
      rptShapeOk (pyDictGetD d "rpt_revenue_pct") = true := by
    cases hv : pyDictGetD data "financials" with
    | dict d =>
      rw [hv] at hf
      simp only [Bool.and_eq_true] at hf
      exact ⟨d, by simp [finOf, hv, pyOr_dict_self], hf.1.1, hf.1.2, hf.2⟩
    | none =>
      exact ⟨[], by simp [finOf, hv, pyOr, pyTruthy],
        by with_unfolding_all rfl, by with_unfolding_all rfl,
        by with_unfolding_all rfl⟩
    | bool b =>
      rw [hv] at hf
      have hb : b = false := by simpa [pyTruthy] using hf
      exact ⟨[], by simp [finOf, hv, pyOr, pyTruthy, hb],
        by with_unfolding_all rfl, by with_unfolding_all rfl,
        by with_unfolding_all rfl⟩
    | num q =>
      rw [hv] at hf
      have hq : q = 0 := by simpa [pyTruthy] using hf
      exact ⟨[], by simp [finOf, hv, pyOr, pyTruthy, hq],
        by with_unfolding_all rfl, by with_unfolding_all rfl,
        by with_unfolding_all rfl⟩
    | str s =>
      rw [hv] at hf
      have hs : s = "" := by simpa [pyTruthy] using hf
      exact ⟨[], by simp [finOf, hv, pyOr, pyTruthy, hs],
        by with_unfolding_all rfl, by with_unfolding_all rfl,
        by with_unfolding_all rfl⟩
    | list l =>
      rw [hv] at hf
      have hl : l = [] := by simpa [pyTruthy] using hf
      exact ⟨[], by simp [finOf, hv, pyOr, pyTruthy, hl],
        by with_unfolding_all rfl, by with_unfolding_all rfl,
        by with_unfolding_all rfl⟩
  obtain ⟨d, hd, hrv, hrc, hrp⟩ := hfin
  obtain ⟨xs, hxs, hxlast⟩ := seriesShape_list _ hrv
  obtain ⟨ys, hys, hylast⟩ := seriesShape_list _ hrc
  obtain ⟨zs, hzs, hzlast⟩ := rptShape_list _ hrp
  obtain ⟨us, hus, huss⟩ := uopShape_list _ hu
  have hyears : yearsOf data =
      .ok (pyOr (pyDictGetD d "years") (PyVal.list [])) := by
    simp [yearsOf, pyGetOr, pyGet, hd]
  have hrev : revOf data = .ok (PyVal.list xs) := by
    simp [revOf, pyGetOr, pyGet, hd, hxs]
  have hrcv : recvOf data = .ok (PyVal.list ys) := by
    simp [recvOf, pyGetOr, pyGet, hd, hys]
  have hrpt : rptOf data = .ok (PyVal.list zs) := by
    simp [rptOf, pyGetOr, pyGet, hd, hzs]
  have huop : pyElems (uopOf data) = .ok us := by
    have h1 : uopOf data = PyVal.list us := by
      simpa [uopOf] using hus
    simp [h1, pyElems]
  obtain ⟨rtr, hrtr⟩ := recToRevFlag_total xs ys hxlast hylast
  obtain ⟨rr, hrr⟩ := rptFlags_total zs hzlast
  obtain ⟨tg, htg⟩ := uopLoop_total us huss 0 0
  refine ⟨flagsOut (cagrList rt xs) (cagrList rt ys) rtr rr.1 rr.2 tg, ?_⟩
  simp only [compute_flags, hyears, hrev, hrcv, hrpt, cagr_on_list, hrtr,
    hrr, huop, htg, exbind]

/-- Witness for the amended C1 at the spec §8 record. -/
theorem compute_flags_total_on_wellShaped_witness :
    wellShapedRecord dataEx = true ∧
    ∃ flags, compute_flags rtId dataEx = .ok flags :=
  ⟨by with_unfolding_all rfl,
   compute_flags_total_on_wellShaped rtId dataEx (by with_unfolding_all rfl)⟩

lemma firstIdx_lt_length {cs : List Char} {c : Char} {i : ℕ}
    (h : firstIdx cs c = some i) : i < cs.length := by
  induction cs generalizing i with
  | nil => simp [firstIdx] at h
  | cons a rest ih =>
    simp only [firstIdx] at h
    by_cases ha : a = c
    · rw [if_pos ha] at h
      cases h
      simp
    · rw [if_neg ha] at h
      cases hj : firstIdx rest c with
      | none => rw [hj] at h; simp at h
      | some j =>
        rw [hj] at h
        simp at h
        have := ih hj
        simp only [List.length_cons]
        omega

lemma lastIdx_spec {cs : List Char} {c : Char} {j : ℕ}
    (h : lastIdx cs c = some j) :
    j < cs.length ∧ (cs.drop j).head? = some c := by
  induction cs generalizing j with
  | nil => simp [lastIdx] at h
  | cons a rest ih =>
    simp only [lastIdx] at h
    cases hj : lastIdx rest c with
    | some i =>
      rw [hj] at h
      cases h
      obtain ⟨h1, h2⟩ := ih hj
      refine ⟨by simp only [List.length_cons]; omega, ?_⟩
      simpa using h2
    | none =>
      rw [hj] at h
      by_cases ha : a = c
      · rw [if_pos ha] at h
        cases h
        exact ⟨by simp, by simp [ha]⟩
      · rw [if_neg ha] at h
        cases h

lemma json_loads_nil : json_loads ([] : List Char) = Option.none := by
  with_unfolding_all rfl

lemma json_loads_rbrace : json_loads [rbrace] = Option.none := by
  with_unfolding_all rfl

/-- C2: for every raw text, the extraction step of
`get_structured_data` (first `{` to last `}` via Python `find`/`rfind`
and slicing, then `json.loads`) behaves exactly as the spec's Adapter
contract: it fails precisely when either brace is absent or the
inclusive substring between them fails to parse as JSON, and otherwise
returns that substring's parse; in particular the spec §8 example
parses to the object and a brace-free input fails. -/
theorem adapter_extract_matches_spec :
    (∀ raw : List Char, extractJson raw = adapterSpec raw) ∧
    extractJson ("here is data: \x7b\"a\":1\x7d trailing").toList =
      some (PyVal.dict [("a", PyVal.num 1)]) ∧
    extractJson ("no json here at all").toList = Option.none := by
  refine ⟨?_, by with_unfolding_all rfl, by with_unfolding_all rfl⟩
  intro raw
  cases hfi : firstIdx raw lbrace with
  | some i =>
    cases hla : lastIdx raw rbrace with
    | some j =>
      have hi := firstIdx_lt_length hfi
      have hj := (lastIdx_spec hla).1
      have ha : pyNormIdx raw.length ((i : ℕ) : ℤ) = i := by
        unfold pyNormIdx
        rw [if_neg (by omega : ¬((i : ℕ) : ℤ) < 0)]
        omega
      have hb : pyNormIdx raw.length (((j : ℕ) : ℤ) + 1) = j + 1 := by
        unfold pyNormIdx
        rw [if_neg (by omega : ¬(((j : ℕ) : ℤ) + 1 < 0))]
        omega
      simp only [extractJson, adapterSpec, pyFindChar, pyRfindChar, hfi, hla,
        pySliceL, ha, hb]
    | none =>
      have hi := firstIdx_lt_length hfi
      have ha : pyNormIdx raw.length ((i : ℕ) : ℤ) = i := by
        unfold pyNormIdx
        rw [if_neg (by omega : ¬((i : ℕ) : ℤ) < 0)]
        omega
      have hb : pyNormIdx raw.length ((-1 : ℤ) + 1) = 0 := by
        unfold pyNormIdx
        rw [if_neg (by omega : ¬((-1 : ℤ) + 1 < 0))]
        omega
      simp only [extractJson, adapterSpec, pyFindChar, pyRfindChar, hfi, hla,
        pySliceL, ha, hb, Nat.zero_sub, List.take_zero, json_loads_nil]
  | none =>
    cases hla : lastIdx raw rbrace with
    | some j =>
      obtain ⟨hj, hhead⟩ := lastIdx_spec hla
      have ha : pyNormIdx raw.length (-1 : ℤ) = raw.length - 1 := by
        unfold pyNormIdx
        rw [if_pos (by omega : (-1 : ℤ) < 0)]
        omega
      have hb : pyNormIdx raw.length (((j : ℕ) : ℤ) + 1) = j + 1 := by
        unfold pyNormIdx
        rw [if_neg (by omega : ¬(((j : ℕ) : ℤ) + 1 < 0))]
        omega
      simp only [extractJson, adapterSpec, pyFindChar, pyRfindChar, hfi, hla,
        pySliceL, ha, hb]
      by_cases hje : j + 1 = raw.length
      · have hdlen : (raw.drop (raw.length - 1)).length = 1 := by
          rw [List.length_drop]
          omega
        obtain ⟨x, hx⟩ := List.length_eq_one.mp hdlen
        have hxr : x = rbrace := by
          have hh := hhead
          rw [show j = raw.length - 1 by omega, hx] at hh
          simpa using hh
        rw [show j + 1 - (raw.length - 1) = 1 by omega, hx, hxr]
        simpa using json_loads_rbrace
      · rw [show j + 1 - (raw.length - 1) = 0 by omega]
        simp [json_loads_nil]
    | none =>
      have hb : pyNormIdx raw.length ((-1 : ℤ) + 1) = 0 := by
        unfold pyNormIdx
        rw [if_neg (by omega : ¬((-1 : ℤ) + 1 < 0))]
        omega
      simp only [extractJson, adapterSpec, pyFindChar, pyRfindChar, hfi, hla,
        pySliceL, hb, Nat.zero_sub, List.take_zero, json_loads_nil]
